import Mathlib

/-!
Verification development for the formasur workflow runtime: a shallow
embedding of the notification dispatcher (`app/notify/dispatcher.py`), the
quiet-hours gate (`app/jobs/scheduler.py`), the audit repository
(`app/notify/repository.py`), the rule-engine evaluation environment
(`app/rules/engine.py`), the column validation of the XLSX importer
(`app/modules/ingest/xlsx_importer.py`) and the ingest / workflow row
pipelines (`app/modules/ingest/course_loader.py`, `app/workflows/runner.py`).

Python machine-level details that no claim depends on are abstracted as
follows: host `eval` of rule/template expressions is an oracle parameter,
dictionaries are association lists in insertion order, `uuid4().hex` is a
deterministic fresh-id counter, and JSON serialisation of payloads is the
identity on the typed payload structures.
-/

namespace Formasur

/-- Python-like primitive values carried in rows, rule results, guard
expressions and adapter responses. -/
inductive PyValue where
  | none
  | bool (b : Bool)
  | str (s : String)
  | int (n : Int)
deriving DecidableEq

/-- Python truthiness, as `bool(value)` computes it on the modelled values. -/
def PyValue.truthy : PyValue → Bool
  | .none => false
  | .bool b => b
  | .str s => s ≠ ""
  | .int n => n ≠ 0

/-- Python `str()` of a value as the template renderer uses it; a `None`
value renders as the empty string (dispatcher line 428). -/
def PyValue.toTemplateString : PyValue → String
  | .none => ""
  | .bool b => if b then "True" else "False"
  | .str s => s
  | .int n => toString n

/-- Python `str.strip` on a character list: whitespace removed at both ends. -/
def pyStrip (s : List Char) : List Char :=
  ((s.dropWhile Char.isWhitespace).reverse.dropWhile Char.isWhitespace).reverse

/-- Python `str.strip` on strings. -/
def pyStripS (s : String) : String :=
  String.mk (pyStrip s.data)

/-- Python `str.lower()` (character-wise, as for the ASCII channel and
type names the dispatcher lowers). Defined over the character list so that
it reduces in the kernel. -/
def pyLower (s : String) : String :=
  String.mk (s.data.map Char.toLower)

/-- A row of spreadsheet data as the dispatcher receives it. -/
abbrev Row := List (String × PyValue)

/-- Rule-evaluation results keyed by rule identifier. -/
abbrev RuleResults := List (String × PyValue)

/-- `EvaluatedRow` from the dispatcher: a row together with its rule results. -/
structure EvaluatedRow where
  row : Row
  rule_results : RuleResults
deriving DecidableEq

/-- Oracle for the host `eval` the dispatcher applies to an expression with
the row context (`_eval_expression`, dispatcher lines 398-404). The embedding
is parametric in it: every theorem below holds for every oracle. -/
abbrev EvalOracle := String → EvaluatedRow → PyValue

/-- `_eval_expression`: an empty expression evaluates to `True` without
calling host `eval`. -/
def evalExpression (E : EvalOracle) (expr : String) (ctx : EvaluatedRow) : PyValue :=
  if expr = "" then .bool true else E expr ctx

/-! ### The template renderer (`NotificationDispatcher._render_template`)

The Python loop scans `result` left to right: it finds the next literal
double open brace, the following double close brace, evaluates the text
between, splices in the string form of the value, and resumes the scan
*after* the spliced text (`start = result.find(open, start + len(replacement))`,
line 430). The loop is modelled with a scan state and a fuel argument
(one fuel per consumed character; the entry point passes `length + 1`,
which is always enough, see `renderLoop_fuel_irrelevant`). -/

/-- Scanner state of the render loop: either scanning literal text, or
inside a placeholder accumulating the expression's characters. -/
inductive RenderMode where
  | scan
  | inExpr (acc : List Char)
deriving DecidableEq

/-- Literal text the unterminated scanner state still owes to the output:
a placeholder opener with no closer is left in the result verbatim
(the Python loop's `break` on `end == -1`, line 425). -/
def RenderMode.leftover : RenderMode → List Char
  | .scan => []
  | .inExpr acc => '{' :: '{' :: acc

/-- One pass of `_render_template`'s while loop over the character list.
`E` is the composite of `_eval_expression` and `str` (empty string for
`None`). Fuel only pads the recursion; it never runs out when the entry
point is used. -/
def renderLoop (E : String → String) : Nat → RenderMode → List Char → List Char
  | 0, m, rest => m.leftover ++ rest
  | _ + 1, .scan, [] => []
  | f + 1, .scan, c :: rest =>
    if c = '{' ∧ rest.head? = some '{' then
      renderLoop E f (.inExpr []) rest.tail
    else
      c :: renderLoop E f .scan rest
  | _ + 1, .inExpr acc, [] => '{' :: '{' :: acc
  | f + 1, .inExpr acc, c :: rest =>
    if c = '}' ∧ rest.head? = some '}' then
      (E (String.mk (pyStrip acc))).data ++ renderLoop E f .scan rest.tail
    else
      renderLoop E f (.inExpr (acc ++ [c])) rest

/-- `_render_template` on a character list. -/
def renderTemplateL (E : String → String) (t : List Char) : List Char :=
  renderLoop E (t.length + 1) .scan t

/-- `_render_template` (dispatcher lines 419-431). -/
def renderTemplate (E : String → String) (t : String) : String :=
  String.mk (renderTemplateL E t.data)

/-! ### The quiet-hours gate (`app/jobs/scheduler.py`) -/

/-- A `datetime`: the quiet-hours gate only reads its time of day via
`now.time()`, a wall-clock time modelled in minutes (or any fixed
subdivision) since midnight; Python's `datetime.time` compares this way. -/
structure DateTime where
  day : Nat := 0
  timeOfDay : Nat
deriving DecidableEq

/-- `QuietHours` (scheduler lines 25-39): the daily window where
notifications pause, as wall-clock times of day. -/
structure QuietHours where
  start : Nat
  «end» : Nat
deriving DecidableEq

/-- `QuietHours.allows` (scheduler lines 32-39): true when the provided
datetime is outside the quiet window. -/
def QuietHours.allows (q : QuietHours) (now : DateTime) : Bool :=
  let current := now.timeOfDay
  if q.start < q.«end» then
    !(q.start ≤ current && current < q.«end»)
  else
    q.«end» ≤ current && current < q.start

/-- The scheduler wrapper: the dispatcher only reads its `quiet_hours`. -/
structure Scheduler where
  quiet_hours : Option QuietHours
deriving DecidableEq

/-- The dispatcher's quiet-hours check (dispatcher lines 169-173): delivery
is suppressed only when a scheduler is configured, it has a quiet window and
`allows` is false. -/
def quietGateAllows (scheduler : Option Scheduler) (now : DateTime) : Bool :=
  match scheduler with
  | Option.none => true
  | Option.some s =>
    match s.quiet_hours with
    | Option.none => true
    | Option.some q => q.allows now

/-! ### The rule engine's evaluation environment (`app/rules/engine.py`)

`RuleSet.evaluate` (engine lines 97-114) evaluates each rule expression with
host `eval(expression, globals, locals)` where
`globals = ("__builtins__" bound to a dict holding "__import__")` and
`locals = SAFE_FUNCTIONS merged with the context` (the context's bindings
win on a key clash). Host `eval` resolves a free name in the locals, then
the globals, then the `__builtins__` dict. The fragment of host evaluation
the safety claim depends on — name resolution and calling `__import__` —
is modelled below; helper calls are abstracted to an opaque result. -/

/-- The names of `SAFE_FUNCTIONS` (engine lines 68-72). -/
def SAFE_FUNCTIONS : List String := ["today", "parse_date", "days_until"]

/-- A value a rule expression can reach in the modelled fragment. -/
inductive RuleVal where
  | helper (name : String)
  | ctxVal (v : PyValue)
  | builtinsDict
  | hostImport
  | hostModule (name : String)
  | helperResult (name arg : String)
deriving DecidableEq

/-- Name resolution inside `RuleSet.evaluate`'s `eval` call: locals
(context bindings shadow the helper set), then the globals dict (which
binds `__builtins__`), then the builtins dict (which binds `__import__`). -/
def lookupRuleName (context : List (String × PyValue)) (n : String) : Option RuleVal :=
  match context.lookup n with
  | Option.some v => Option.some (.ctxVal v)
  | Option.none =>
    if SAFE_FUNCTIONS.contains n then Option.some (.helper n)
    else if n = "__builtins__" then Option.some .builtinsDict
    else if n = "__import__" then Option.some .hostImport
    else Option.none

/-- The fragment of Python expressions the safety claim is about: a free
name, or a call with one string-literal argument. -/
inductive RuleExpr where
  | name (n : String)
  | call (f : RuleExpr) (arg : String)
deriving DecidableEq

/-- Evaluation of the modelled expression fragment under the environment
`RuleSet.evaluate` builds. Calling `__import__` on a module name yields that
host module; helper calls yield an abstract result; everything else is out
of the modelled fragment. -/
def evalRuleExpr (context : List (String × PyValue)) : RuleExpr → Option RuleVal
  | .name n => lookupRuleName context n
  | .call f arg =>
    match evalRuleExpr context f with
    | Option.some .hostImport => Option.some (.hostModule arg)
    | Option.some (.helper h) => Option.some (.helperResult h arg)
    | _ => Option.none

/-! ### Column validation of the XLSX importer
(`app/modules/ingest/xlsx_importer.py`) -/

/-- `ColumnConfig` (importer lines 33-38): candidate source columns for a
logical field, and whether the field is required. -/
structure ColumnConfig where
  sources : List String
  required : Bool
deriving DecidableEq

/-- The required source columns, in mapping order: `parse_xlsx` extends the
list with every candidate source of every required field (lines 149-153). -/
def requiredSources (columns : List (String × ColumnConfig)) : List String :=
  columns.foldl (fun acc p => if p.2.required then acc ++ p.2.sources else acc) []

/-- `missing_columns` (lines 155-157): every required source absent from
the workbook's header set. -/
def missingColumns (columns : List (String × ColumnConfig))
    (headers : List String) : List String :=
  (requiredSources columns).filter (fun c => !(headers.contains c))

/-- The validation errors (lines 159-161): a single message when any
required source is missing. -/
def columnErrors (columns : List (String × ColumnConfig))
    (headers : List String) : List String :=
  if missingColumns columns headers = [] then []
  else
    [String.append ("Columnas faltantes: ")
      (String.intercalate (", ") (missingColumns columns headers))]

/-- `ImportSummary` (importer lines 41-54), restricted to the fields the
claims read (the preview is not modelled). -/
structure ImportSummary where
  total_rows : Nat
  missing_columns : List String
  errors : List String
deriving DecidableEq

/-- `ImportSummary.is_valid` (lines 50-54): no errors. -/
def ImportSummary.is_valid (s : ImportSummary) : Bool :=
  s.errors.isEmpty

/-- The column-validation phase of `parse_xlsx` (lines 147-180), for a
successfully read workbook with the given headers and row count. -/
def validateColumns (columns : List (String × ColumnConfig))
    (headers : List String) (totalRows : Nat) : ImportSummary :=
  { total_rows := totalRows
    missing_columns := missingColumns columns headers
    errors := columnErrors columns headers }

/-- The claim's validation rule, modelled from the spec's words: every
required field needs at least one candidate source present in the headers. -/
def specColumnsValid (columns : List (String × ColumnConfig))
    (headers : List String) : Bool :=
  columns.all (fun p => !p.2.required || p.2.sources.any (fun s => headers.contains s))

/-! ### The ingest and workflow row pipelines
(`app/modules/ingest/course_loader.py`, `app/workflows/runner.py`) -/

/-- A normalized row, restricted to the fields the empty-email claim reads
(`_normalize_row` puts `Option.none` where every candidate cell is blank). -/
structure NormalizedRow where
  email : Option String := Option.none
  full_name : Option String := Option.none
  course_name : Option String := Option.none
  fields : List (String × PyValue) := []
deriving DecidableEq

/-- Python's `if not email` guard of `ingest_workbook` (loader lines 84-86):
a missing or empty email is falsy. -/
def NormalizedRow.emptyEmail (r : NormalizedRow) : Bool :=
  r.email.getD "" = ""

/-- The persistence entities `ingest_workbook` creates, at the identity
level the claim reads: course names, student emails and enrollment pairs. -/
structure DBState where
  courses : List String := []
  students : List String := []
  enrollments : List (String × String) := []
deriving DecidableEq

/-- One iteration of `ingest_workbook`'s row loop (loader lines 80-90): an
empty email skips the row entirely; otherwise course, student and
enrollment are fetched or created (`_get_or_create_*`, modelled at the
key level: name for courses, email for students, the pair for enrollments;
`normalized.get("course_name") or "Curso sin nombre"` defaults falsy
names). -/
def ingestRowStep (db : DBState) (r : NormalizedRow) : DBState :=
  if r.emptyEmail then db
  else
    let email := r.email.getD ""
    let name :=
      match r.course_name with
      | Option.some c => if c = "" then "Curso sin nombre" else c
      | Option.none => "Curso sin nombre"
    let db :=
      if db.courses.contains name then db
      else { db with courses := db.courses ++ [name] }
    let db :=
      if db.students.contains email then db
      else { db with students := db.students ++ [email] }
    if db.enrollments.contains (email, name) then db
    else { db with enrollments := db.enrollments ++ [(email, name)] }

/-- The row loop of `ingest_workbook` over the normalized rows. -/
def ingestRows (rows : List NormalizedRow) (db : DBState) : DBState :=
  rows.foldl ingestRowStep db

/-- `WorkflowRunner._evaluate_rows` (runner lines 134-158): every normalized
row is serialised, evaluated against the ruleset and yielded — there is no
email filter on this path. `serialize` stands for `_serialize_for_rules`
and `rr` for `ruleset.evaluate` on the serialised row. -/
def evaluateRows (serialize : NormalizedRow → Row)
    (rr : NormalizedRow → RuleResults)
    (rows : List NormalizedRow) : List EvaluatedRow :=
  rows.map (fun r => { row := serialize r, rule_results := rr r })

/-! ### The notification dispatcher (`app/notify/dispatcher.py`)

Actions are Python mappings; the dispatcher reads `type`, `when`,
`channel`, `to` and `subject` and renders every string-valued field
(except `when`, which is dropped from the rendered action). The model
types those five keys and keeps the remaining string-valued fields in
`fields`. Adapters are records with a `name` and a `send` function that
either returns a response mapping (`Option.none` models Python `None`,
which `_ensure_mapping` turns into the empty dict) or fails with the
stringified exception. The audit repository is modelled by the flag
`hasAuditRepo` plus the trace of entries passed to `add`
(`_record_audit` drops the entry when no repository is configured,
lines 450-453). -/

/-- An action mapping. -/
structure Action where
  type : Option String := Option.none
  channel : Option String := Option.none
  when : Option PyValue := Option.none
  «to» : Option String := Option.none
  subject : Option String := Option.none
  fields : List (String × String) := []
deriving DecidableEq

/-- `_should_dispatch` (dispatcher lines 379-396): a missing guard passes;
a string guard is stripped, unwrapped from literal double braces, evaluated,
and interpreted with the string truthiness table; any other guard value uses
Python truthiness. -/
def shouldDispatch (E : EvalOracle) (cond : Option PyValue) (ctx : EvaluatedRow) : Bool :=
  match cond with
  | Option.none => true
  | Option.some (.str s) =>
    let expression := pyStripS s
    if expression = "" then true
    else
      let d := expression.data
      let wrapped :=
        match d, d.reverse with
        | a :: b :: _, x :: y :: _ => a = '{' && b = '{' && x = '}' && y = '}'
        | _, _ => false
      let expression :=
        if wrapped then pyStripS (String.mk ((d.drop 2).take (d.length - 4)))
        else expression
      let value := evalExpression E expression ctx
      match value with
      | .str sv =>
        let lowered := pyLower (pyStripS sv)
        if lowered = "" || lowered = "false" || lowered = "0" || lowered = "no" then
          false
        else if lowered = "true" || lowered = "1" || lowered = "yes" then
          true
        else
          value.truthy
      | _ => value.truthy
  | Option.some v => v.truthy

/-- `_render_action` (lines 406-417): every string field except `when` is
rendered through `_render_template` with the row context; `when` is not
copied into the rendered action. -/
def renderAction (E : EvalOracle) (ctx : EvaluatedRow) (a : Action) : Action :=
  let R := fun (s : String) =>
    renderTemplate (fun e => (evalExpression E e ctx).toTemplateString) s
  { type := a.type.map R
    channel := a.channel.map R
    when := Option.none
    «to» := a.«to».map R
    subject := a.subject.map R
    fields := a.fields.map (fun p => (p.1, R p.2)) }

/-- The payload `_prepare_payload` builds (lines 489-498), with the
`job_id` key `setdefault` may add later. Serialisation is the identity on
this typed structure. -/
structure AuditPayload where
  playbook : Option String
  action : Action
  row : Row
  rule_results : RuleResults
  job_id : Option String := Option.none
deriving DecidableEq

/-- `NotificationAuditEntry` (dispatcher lines 26-42). -/
structure NotificationAuditEntry where
  playbook : Option String
  channel : String
  adapter : String
  recipient : Option String
  subject : Option String
  status : String
  payload : AuditPayload
  response : Option (List (String × PyValue)) := Option.none
  error : Option String := Option.none
  job_id : Option String := Option.none
  job_name : Option String := Option.none
  queue_name : Option String := Option.none
deriving DecidableEq

/-- The payload handed to an adapter's `send` (deliver lines 314-323):
playbook, the rendered action, and the row context. -/
structure AdapterPayload where
  playbook : Option String
  action : Action
  row : Row
  rule_results : RuleResults
deriving DecidableEq

/-- A channel adapter: its display name and its `send`, which returns a
response mapping (`Option.none` for Python `None`) or raises — modelled as
`Except.error` with the stringified exception. A non-mapping return value
(a `TypeError` from `_ensure_mapping`, untyped here) is outside the model. -/
structure Adapter where
  name : String
  send : AdapterPayload → Except String (Option (List (String × PyValue)))

/-- The dispatcher's configuration: constructor arguments of
`NotificationDispatcher` (lines 111-127). `adapters` keys are stored
lowercased by the constructor; `now` is the value of the injected
`now_provider` during the run. -/
structure DispatcherCfg where
  hasQueue : Bool := false
  queueName : Option String := Option.none
  scheduler : Option Scheduler := Option.none
  adapters : List (String × Adapter) := []
  hasAuditRepo : Bool := false
  job_name : String := "app.notify.worker.dispatch"
  now : DateTime

/-- Dictionary lookup over the constructor-lowercased adapter mapping
(a later duplicate key overrides an earlier one, as in a dict). -/
def adapterLookup (adapters : List (String × Adapter)) (channel : String) : Option Adapter :=
  ((adapters.map (fun p => (pyLower p.1, p.2))).reverse).lookup channel

/-- `_adapter_for_channel` (lines 433-439): the empty channel falls back to
`default`; an unknown channel yields `Option.none` (the `AdapterNotFoundError`). -/
def DispatcherCfg.adapterForChannel (cfg : DispatcherCfg) (channel : String) : Option Adapter :=
  let channel := if channel = "" then "default" else channel
  if cfg.adapters.isEmpty then Option.none
  else adapterLookup cfg.adapters channel

/-- `_adapter_label` (lines 444-448): the adapter's name when the channel
resolves, otherwise the channel itself. -/
def DispatcherCfg.adapterLabel (cfg : DispatcherCfg) (channel : String) : String :=
  if cfg.adapters.isEmpty then channel
  else
    match adapterLookup cfg.adapters channel with
    | Option.some a => a.name
    | Option.none => channel

/-- `_queue_label` (lines 500-503): `inline` without a queue, the queue's
name attribute otherwise. -/
def DispatcherCfg.queueLabel (cfg : DispatcherCfg) : Option String :=
  if cfg.hasQueue then cfg.queueName else Option.some ("inline")

/-- `_generate_job_id` (`uuid4().hex`): modelled as a deterministic fresh
identifier drawn from a counter threaded through the run. -/
def genJobId (n : Nat) : String :=
  String.append ("job-") (toString n)

/-- Per-channel statistics (dispatcher lines 153-161). -/
structure ChannelStats where
  «matches» : Nat := 0
  enqueued : Nat := 0
  skipped_quiet_hours : Nat := 0
  errors : Nat := 0
deriving DecidableEq

/-- `summary.setdefault(channel, zero_stats)`: append a zero entry when the
channel has none yet. -/
def setdefaultStats (l : List (String × ChannelStats)) (c : String) :
    List (String × ChannelStats) :=
  if l.any (fun p => p.1 = c) then l else l ++ [(c, ({} : ChannelStats))]

/-- Update the (unique) entry of a channel, first occurrence. -/
def updateStats : List (String × ChannelStats) → String →
    (ChannelStats → ChannelStats) → List (String × ChannelStats)
  | [], _, _ => []
  | p :: rest, c, f =>
    if p.1 = c then (p.1, f p.2) :: rest
    else p :: updateStats rest c f

/-- A `stats[key] += 1` on the dict entry `summary.setdefault` returned. -/
def bumpStat (l : List (String × ChannelStats)) (c : String)
    (f : ChannelStats → ChannelStats) : List (String × ChannelStats) :=
  updateStats (setdefaultStats l c) c f

/-- The four statistic increments of `dispatch`. -/
def incMatches (st : ChannelStats) : ChannelStats :=
  { st with «matches» := st.«matches» + 1 }

/-- Increment `enqueued`. -/
def incEnqueued (st : ChannelStats) : ChannelStats :=
  { st with enqueued := st.enqueued + 1 }

/-- Increment `skipped_quiet_hours`. -/
def incSkipped (st : ChannelStats) : ChannelStats :=
  { st with skipped_quiet_hours := st.skipped_quiet_hours + 1 }

/-- Increment `errors`. -/
def incErrors (st : ChannelStats) : ChannelStats :=
  { st with errors := st.errors + 1 }

/-- A call recorded against the queue: `queue.enqueue(job_name, kwargs, job_id)`
with the kwargs payload of dispatcher lines 213-221. -/
structure EnqueueCall where
  job_name : String
  playbook : Option String
  action : Action
  row : Row
  rule_results : RuleResults
  job_id : String
deriving DecidableEq

/-- The observable state a dispatch run threads: the per-channel summary it
returns, the audit entries passed to the repository, the queue calls, the
adapter invocations, and the fresh-id counter. -/
structure DispatchState where
  summary : List (String × ChannelStats) := []
  audits : List NotificationAuditEntry := []
  enqueues : List EnqueueCall := []
  adapterCalls : List (String × AdapterPayload) := []
  nextJobId : Nat := 0
deriving DecidableEq

/-- `_record_audit` as a delta: the entry reaches the repository only when
one is configured (lines 450-453). -/
def auditIf (hasRepo : Bool) (e : NotificationAuditEntry) : List NotificationAuditEntry :=
  if hasRepo then [e] else []

/-- What a single `deliver` call did and returned. -/
inductive DeliverOutcome where
  | ok (status : String) (response : Option (List (String × PyValue)))
  | adapterNotFound (channel : String)
  | deliveryError (channel adapter message : String)
deriving DecidableEq

/-- The deltas a `deliver` call contributes to the run's state. -/
structure DeliverResult where
  outcome : DeliverOutcome
  audits : List NotificationAuditEntry := []
  adapterCalls : List (String × AdapterPayload) := []
  jobIdsGenerated : Nat := 0


/-- `NotificationDispatcher.deliver` (lines 252-377). The adapter resolves
before the dry-run check; a dry run audits `dry_run` and returns without
touching the adapter; a live call invokes `send` and audits `sent` or
`error`, re-raising adapter failures as a delivery error. `counter` feeds
`_generate_job_id` when no job id is supplied. -/
def deliver (cfg : DispatcherCfg) (playbook : Option String) (action : Action)
    (row : Row) (rule_results : RuleResults) (dryRun : Bool)
    (jobId jobName queueName : Option String) (counter : Nat) : DeliverResult :=
  let channel := pyLower (action.channel.getD "default")
  match cfg.adapterForChannel channel with
  | Option.none => { outcome := .adapterNotFound channel }
  | Option.some adapter =>
    let adapterName := adapter.name
    let recipient := action.«to»
    let subject := action.subject
    let payload : AuditPayload :=
      { playbook := playbook, action := action, row := row, rule_results := rule_results }
    let jobIdentifier := jobId.getD (genJobId counter)
    let generated := if jobId.isSome then 0 else 1
    let jobLabel := jobName.getD cfg.job_name
    let queueLabel :=
      match queueName with
      | Option.some q => Option.some q
      | Option.none => cfg.queueLabel
    let payloadWithJob := { payload with job_id := Option.some jobIdentifier }
    if dryRun then
      { outcome := .ok "dry_run" Option.none
        audits := auditIf cfg.hasAuditRepo
          { playbook := playbook, channel := channel, adapter := adapterName
            recipient := recipient, subject := subject, status := "dry_run"
            payload := payloadWithJob, job_id := Option.some jobIdentifier
            job_name := Option.some jobLabel, queue_name := queueLabel }
        jobIdsGenerated := generated }
    else
      let wire : AdapterPayload :=
        { playbook := playbook, action := action, row := row, rule_results := rule_results }
      match adapter.send wire with
      | Except.error msg =>
        { outcome := .deliveryError channel adapterName msg
          audits := auditIf cfg.hasAuditRepo
            { playbook := playbook, channel := channel, adapter := adapterName
              recipient := recipient, subject := subject, status := "error"
              payload := payloadWithJob, error := Option.some msg
              job_id := Option.some jobIdentifier
              job_name := Option.some jobLabel, queue_name := queueLabel }
          adapterCalls := [(adapterName, wire)]
          jobIdsGenerated := generated }
      | Except.ok resp =>
        let responseMapping := resp.getD []
        { outcome := .ok "sent" (Option.some responseMapping)
          audits := auditIf cfg.hasAuditRepo
            { playbook := playbook, channel := channel, adapter := adapterName
              recipient := recipient, subject := subject, status := "sent"
              payload := payloadWithJob, response := Option.some responseMapping
              job_id := Option.some jobIdentifier
              job_name := Option.some jobLabel, queue_name := queueLabel }
          adapterCalls := [(adapterName, wire)]
          jobIdsGenerated := generated }

/-- The deltas `_record_dry_run` contributes. -/
structure DryRunResult where
  audits : List NotificationAuditEntry := []
  adapterCalls : List (String × AdapterPayload) := []
  jobIdsGenerated : Nat := 0

/-- `_record_dry_run` (lines 455-487): nothing happens without an audit
repository; otherwise `deliver` runs with `dry_run=True`, and an
`AdapterNotFoundError` is converted into a `dry_run` audit with the error
`adaptador no configurado`. -/
def recordDryRun (cfg : DispatcherCfg) (playbook : Option String)
    (action : Action) (item : EvaluatedRow) (counter : Nat) : DryRunResult :=
  if cfg.hasAuditRepo = false then ({} : DryRunResult)
  else
    let res := deliver cfg playbook action item.row item.rule_results true
      Option.none Option.none Option.none counter
    match res.outcome with
    | .adapterNotFound channel =>
      { audits := res.audits ++ auditIf cfg.hasAuditRepo
          { playbook := playbook, channel := channel
            adapter := cfg.adapterLabel channel
            recipient := action.«to», subject := action.subject
            status := "dry_run"
            payload := { playbook := playbook, action := action
                         row := item.row, rule_results := item.rule_results }
            error := Option.some ("adaptador no configurado") }
        adapterCalls := res.adapterCalls
        jobIdsGenerated := res.jobIdsGenerated }
    | _ =>
      { audits := res.audits
        adapterCalls := res.adapterCalls
        jobIdsGenerated := res.jobIdsGenerated }

/-- One row × action iteration of `NotificationDispatcher.dispatch`
(lines 140-249): skip non-notify actions and false guards; render; count
the match; then dry-run recording, quiet-hours suppression, inline
delivery (errors swallowed into the stats) or queue hand-off. -/
def dispatchStep (cfg : DispatcherCfg) (E : EvalOracle) (dryRun : Bool)
    (playbook : Option String) (item : EvaluatedRow)
    (s : DispatchState) (action : Action) : DispatchState :=
  if (pyLower (action.type.getD "") ≠ "notify") then s
  else if shouldDispatch E action.when item = false then s
  else
    let rendered := renderAction E item action
    let channel := pyLower (rendered.channel.getD "default")
    let s := { s with
      summary := bumpStat s.summary channel incMatches }
    if dryRun then
      let res := recordDryRun cfg playbook rendered item s.nextJobId
      { s with
        audits := s.audits ++ res.audits
        adapterCalls := s.adapterCalls ++ res.adapterCalls
        nextJobId := s.nextJobId + res.jobIdsGenerated }
    else if quietGateAllows cfg.scheduler cfg.now = false then
      { s with
        summary := bumpStat s.summary channel incSkipped
        audits := s.audits ++ auditIf cfg.hasAuditRepo
          { playbook := playbook, channel := channel
            adapter := cfg.adapterLabel channel
            recipient := rendered.«to», subject := rendered.subject
            status := "quiet_hours"
            payload := { playbook := playbook, action := rendered
                         row := item.row, rule_results := item.rule_results } } }
    else if cfg.hasQueue = false then
      let jobId := genJobId s.nextJobId
      let res := deliver cfg playbook rendered item.row item.rule_results false
        (Option.some jobId) (Option.some cfg.job_name) cfg.queueLabel (s.nextJobId + 1)
      let s := { s with
        audits := s.audits ++ res.audits
        adapterCalls := s.adapterCalls ++ res.adapterCalls
        nextJobId := s.nextJobId + 1 + res.jobIdsGenerated }
      match res.outcome with
      | .adapterNotFound _ =>
        { s with summary := bumpStat s.summary channel incErrors }
      | .deliveryError _ _ _ =>
        { s with summary := bumpStat s.summary channel incErrors }
      | .ok status _ =>
        if status = "sent" then
          { s with summary := bumpStat s.summary channel incEnqueued }
        else if status = "error" then
          { s with summary := bumpStat s.summary channel incErrors }
        else s
    else
      let jobId := genJobId s.nextJobId
      let s := { s with nextJobId := s.nextJobId + 1 }
      let s := { s with
        enqueues := s.enqueues ++
          [({ job_name := cfg.job_name, playbook := playbook, action := rendered
              row := item.row, rule_results := item.rule_results
              job_id := jobId } : EnqueueCall)] }
      let s := { s with
        audits := s.audits ++ auditIf cfg.hasAuditRepo
          { playbook := playbook, channel := channel
            adapter := cfg.adapterLabel channel
            recipient := rendered.«to», subject := rendered.subject
            status := "queued"
            payload := { playbook := playbook, action := rendered
                         row := item.row, rule_results := item.rule_results
                         job_id := Option.some jobId }
            job_id := Option.some jobId
            job_name := Option.some cfg.job_name
            queue_name := cfg.queueLabel } }
      { s with summary := bumpStat s.summary channel incEnqueued }

/-- The inner action loop of `dispatch` for one evaluated row. -/
def dispatchRow (cfg : DispatcherCfg) (E : EvalOracle) (dryRun : Bool)
    (playbook : Option String) (actions : List Action)
    (s : DispatchState) (item : EvaluatedRow) : DispatchState :=
  actions.foldl (dispatchStep cfg E dryRun playbook item) s

/-- `NotificationDispatcher.dispatch` (lines 129-250): the full run. The
Python method returns `summary`; the model also returns the traces. -/
def dispatch (cfg : DispatcherCfg) (E : EvalOracle)
    (evaluated_rows : List EvaluatedRow) (actions : List Action)
    (dryRun : Bool) (playbook : Option String) : DispatchState :=
  evaluated_rows.foldl (dispatchRow cfg E dryRun playbook actions) ({} : DispatchState)

/-! ### The audit repository (`app/notify/repository.py`) -/

/-- `_map_job_status` (repository lines 78-86). -/
def mapJobStatus (status : String) : String :=
  if status = "queued" then "queued"
  else if status = "dry_run" then "dry_run"
  else if status = "quiet_hours" then "paused"
  else if status = "sent" then "succeeded"
  else if status = "error" then "failed"
  else status

/-- The Job upsert `SQLANotificationRepository.add` performs for one entry
(lines 26-43): only entries with a truthy `job_id` touch a Job row, whose
status becomes the mapped audit status. -/
def jobUpsertOf (entry : NotificationAuditEntry) : Option (String × String) :=
  match entry.job_id with
  | Option.some j => if j = "" then Option.none else Option.some (j, mapJobStatus entry.status)
  | Option.none => Option.none

/-- The Job upserts a sequence of repository `add` calls performs. -/
def repositoryUpserts (audits : List NotificationAuditEntry) : List (String × String) :=
  audits.filterMap jobUpsertOf

/-! ### Summary aggregation helpers -/

/-- Sum of one statistic over all channels of a summary. -/
def sumBy (g : ChannelStats → Nat) (l : List (String × ChannelStats)) : Nat :=
  (l.map (fun p => g p.2)).sum

/-- The statistics of one channel (zero when the channel has no entry). -/
def getStats : List (String × ChannelStats) → String → ChannelStats
  | [], _ => ({} : ChannelStats)
  | p :: rest, c => if p.1 = c then p.2 else getStats rest c

/-- The audit entries of one status. -/
def countStatus (status : String) (audits : List NotificationAuditEntry) : Nat :=
  (audits.filter (fun e => e.status = status)).length

/-- The lower-cased channel a matched action is booked under
(dispatcher line 152). -/
def actionChannel (E : EvalOracle) (item : EvaluatedRow) (a : Action) : String :=
  pyLower ((renderAction E item a).channel.getD "default")

/-- Projection of the `matches` statistic. -/
def statMatches (st : ChannelStats) : Nat := st.«matches»

/-- Projection of the `enqueued` statistic. -/
def statEnqueued (st : ChannelStats) : Nat := st.enqueued

/-- Projection of the `skipped_quiet_hours` statistic. -/
def statSkipped (st : ChannelStats) : Nat := st.skipped_quiet_hours

/-- Projection of the `errors` statistic. -/
def statErrors (st : ChannelStats) : Nat := st.errors

/-- The balance invariant of one run's state: matches booked so far equal
the terminal stat increments plus the dry-run audits recorded so far. -/
def statsBalanced (s : DispatchState) : Prop :=
  sumBy statMatches s.summary
    = sumBy statEnqueued s.summary + sumBy statSkipped s.summary
      + sumBy statErrors s.summary + countStatus "dry_run" s.audits

/-- No two adjacent characters of the list both equal `a`. Used to state
that a template prefix contains no placeholder opener (`adjPairFree '\x7b'
(pre ++ [open])` also rules out a prefix ending in a lone open brace that
would merge with the placeholder's opener), and that an expression contains
no placeholder closer. -/
def adjPairFree (a : Char) : List Char → Bool
  | [] => true
  | [_] => true
  | c :: d :: rest => !(c = a && d = a) && adjPairFree a (d :: rest)

/-! ### Concrete fixtures used by witnesses and counterexamples -/

/-- An oracle whose every expression evaluates to `True`. -/
def oracleTrue : EvalOracle := fun _ _ => PyValue.bool true

/-- A one-row context as in the dispatcher's tests. -/
def rowPhone : EvaluatedRow :=
  { row := [(("telefono"), PyValue.str ("+34111"))], rule_results := [] }

/-- A guard-free notify action on the whatsapp channel. -/
def actNotify : Action :=
  { type := Option.some ("notify"), channel := Option.some ("whatsapp") }

/-- An adapter whose `send` always raises. -/
def failingAdapter : Adapter :=
  { name := "FailingAdapter", send := fun _ => Except.error ("boom") }

/-- An adapter whose `send` always succeeds with a small response mapping. -/
def stubAdapter : Adapter :=
  { name := "StubAdapter"
    send := fun _ => Except.ok (Option.some [(("delivered"), PyValue.bool true)]) }

/-- Dry-run dispatcher with an audit repository and no adapters. -/
def cfgDryRepo : DispatcherCfg := { hasAuditRepo := true, now := ⟨0, 600⟩ }

/-- Dry-run dispatcher without an audit repository (the default wiring of
`WorkflowRunner._default_dispatcher_factory` passes no repository). -/
def cfgDryNoRepo : DispatcherCfg := { hasAuditRepo := false, now := ⟨0, 600⟩ }

/-- Inline dispatcher (no queue) with a failing adapter and a repository. -/
def cfgInlineFailRepo : DispatcherCfg :=
  { hasAuditRepo := true, adapters := [(("whatsapp"), failingAdapter)], now := ⟨0, 600⟩ }

/-- Inline dispatcher (no queue) with a failing adapter and no repository. -/
def cfgInlineFailNoRepo : DispatcherCfg :=
  { hasAuditRepo := false, adapters := [(("whatsapp"), failingAdapter)], now := ⟨0, 600⟩ }

/-- Queue-backed dispatcher with a repository, clock at 22:00 inside the
21:00-08:00 quiet window (times in minutes since midnight). -/
def cfgQuietQueue : DispatcherCfg :=
  { hasQueue := true, queueName := Option.some ("notifications")
    scheduler := Option.some ⟨Option.some ⟨1260, 480⟩⟩
    hasAuditRepo := true, now := ⟨0, 1320⟩ }

/-- An evaluation function whose substituted value itself contains a
placeholder opener and closer. -/
def substOracle : String → String :=
  fun s => String.append (String.append ("\x7b\x7b") s) ("\x7d\x7d")

/-- Serialisation fixture carrying the row's email. -/
def serEmail : NormalizedRow → Row :=
  fun r => [(("email"), PyValue.str (r.email.getD ""))]

/-- Rule-result fixture: no rules. -/
def rrEmpty : NormalizedRow → RuleResults := fun _ => []

/-- A normalized row with no email. -/
def emptyEmailRow : NormalizedRow := {}

/-- A mapping with one required field having two candidate sources. -/
def colsEmailTwo : List (String × ColumnConfig) :=
  [(("email"), { sources := [("Email"), ("Correo")], required := true })]

/-- A mapping with one required field having one candidate source. -/
def colsEmailOne : List (String × ColumnConfig) :=
  [(("email"), { sources := [("Correo")], required := true })]

/-! ## Helper lemmas -/

theorem sumBy_nil (g : ChannelStats → Nat) : sumBy g [] = 0 := rfl

theorem sumBy_cons (g : ChannelStats → Nat) (p : String × ChannelStats)
    (l : List (String × ChannelStats)) : sumBy g (p :: l) = g p.2 + sumBy g l := by
  simp [sumBy]

theorem sumBy_append (g : ChannelStats → Nat) (a b : List (String × ChannelStats)) :
    sumBy g (a ++ b) = sumBy g a + sumBy g b := by
  simp [sumBy]

theorem countStatus_nil (st : String) : countStatus st [] = 0 := rfl

theorem countStatus_append (st : String) (a b : List NotificationAuditEntry) :
    countStatus st (a ++ b) = countStatus st a + countStatus st b := by
  simp [countStatus]

theorem countStatus_auditIf_ne (st : String) (b : Bool) (e : NotificationAuditEntry)
    (h : e.status ≠ st) : countStatus st (auditIf b e) = 0 := by
  cases b <;> simp [auditIf, countStatus, h]

theorem countStatus_auditIf_eq (st : String) (e : NotificationAuditEntry)
    (h : e.status = st) : countStatus st (auditIf true e) = 1 := by
  simp [auditIf, countStatus, h]

theorem sumBy_updateStats_add (g : ChannelStats → Nat) (f : ChannelStats → ChannelStats)
    (d : Nat) (hf : ∀ st, g (f st) = g st + d) :
    ∀ (l : List (String × ChannelStats)) (c : String),
      l.any (fun p => p.1 = c) = true →
      sumBy g (updateStats l c f) = sumBy g l + d := by
  intro l
  induction l with
  | nil => intro c h; simp at h
  | cons p rest ih =>
    intro c h
    by_cases hp : p.1 = c
    · simp [updateStats, hp, sumBy_cons, hf]; omega
    · have h' : rest.any (fun q => q.1 = c) = true := by
        simpa [List.any_cons, hp] using h
      simp only [updateStats, if_neg hp, sumBy_cons, ih c h']
      omega

theorem updateStats_append_of_not_mem (f : ChannelStats → ChannelStats) (c : String)
    (st : ChannelStats) :
    ∀ (l : List (String × ChannelStats)), (∀ p ∈ l, p.1 ≠ c) →
      updateStats (l ++ [(c, st)]) c f = l ++ [(c, f st)] := by
  intro l
  induction l with
  | nil => intro _; simp [updateStats]
  | cons p rest ih =>
    intro h
    have hp : p.1 ≠ c := h p (by simp)
    have hrest : ∀ q ∈ rest, q.1 ≠ c := fun q hq => h q (by simp [hq])
    simp only [List.cons_append, updateStats, if_neg hp]
    exact congrArg (fun t => p :: t) (ih hrest)

theorem sumBy_bumpStat_add (g : ChannelStats → Nat) (f : ChannelStats → ChannelStats)
    (d : Nat) (hf : ∀ st, g (f st) = g st + d) (hz : g ({} : ChannelStats) = 0)
    (l : List (String × ChannelStats)) (c : String) :
    sumBy g (bumpStat l c f) = sumBy g l + d := by
  unfold bumpStat setdefaultStats
  by_cases h : l.any (fun p => p.1 = c) = true
  · rw [if_pos h]
    exact sumBy_updateStats_add g f d hf l c h
  · rw [if_neg h]
    have hnot : ∀ p ∈ l, p.1 ≠ c := by
      intro p hp hpc
      exact h (List.any_eq_true.mpr ⟨p, hp, by simp [hpc]⟩)
    rw [updateStats_append_of_not_mem f c _ l hnot, sumBy_append]
    simp [sumBy_cons, sumBy_nil, hf, hz]

theorem sumBy_bumpStat_id (g : ChannelStats → Nat) (f : ChannelStats → ChannelStats)
    (hf : ∀ st, g (f st) = g st) (hz : g ({} : ChannelStats) = 0)
    (l : List (String × ChannelStats)) (c : String) :
    sumBy g (bumpStat l c f) = sumBy g l := by
  have := sumBy_bumpStat_add g f 0 (fun st => by simp [hf st]) hz l c
  omega

theorem getStats_of_not_mem (c : String) :
    ∀ (l : List (String × ChannelStats)), (∀ p ∈ l, p.1 ≠ c) →
      getStats l c = ({} : ChannelStats) := by
  intro l
  induction l with
  | nil => intro _; rfl
  | cons p rest ih =>
    intro h
    have hp : p.1 ≠ c := h p (by simp)
    simp only [getStats, if_neg hp]
    exact ih (fun q hq => h q (by simp [hq]))

theorem getStats_updateStats_self (f : ChannelStats → ChannelStats) :
    ∀ (l : List (String × ChannelStats)) (c : String),
      l.any (fun p => p.1 = c) = true →
      getStats (updateStats l c f) c = f (getStats l c) := by
  intro l
  induction l with
  | nil => intro c h; simp at h
  | cons p rest ih =>
    intro c h
    by_cases hp : p.1 = c
    · simp [updateStats, getStats, hp]
    · have h' : rest.any (fun q => q.1 = c) = true := by
        simpa [List.any_cons, hp] using h
      simp only [updateStats, if_neg hp, getStats, ih c h']

theorem getStats_append_of_not_mem (c : String) (rest2 : List (String × ChannelStats)) :
    ∀ (l : List (String × ChannelStats)), (∀ p ∈ l, p.1 ≠ c) →
      getStats (l ++ rest2) c = getStats rest2 c := by
  intro l
  induction l with
  | nil => intro _; rfl
  | cons p rest ih =>
    intro h
    have hp : p.1 ≠ c := h p (by simp)
    simp only [List.cons_append, getStats, if_neg hp]
    exact ih (fun q hq => h q (by simp [hq]))

theorem getStats_bumpStat_self (f : ChannelStats → ChannelStats)
    (l : List (String × ChannelStats)) (c : String) :
    getStats (bumpStat l c f) c = f (getStats l c) := by
  unfold bumpStat setdefaultStats
  by_cases h : l.any (fun p => p.1 = c) = true
  · rw [if_pos h]
    exact getStats_updateStats_self f l c h
  · rw [if_neg h]
    have hnot : ∀ p ∈ l, p.1 ≠ c := by
      intro p hp hpc
      exact h (List.any_eq_true.mpr ⟨p, hp, by simp [hpc]⟩)
    rw [updateStats_append_of_not_mem f c _ l hnot,
      getStats_append_of_not_mem c _ l hnot, getStats_of_not_mem c l hnot]
    simp [getStats]

theorem foldl_preserves {α σ : Type _} (P : σ → Prop) (f : σ → α → σ)
    (hf : ∀ s a, P s → P (f s a)) :
    ∀ (l : List α) (s : σ), P s → P (l.foldl f s) := by
  intro l
  induction l with
  | nil => intro s h; exact h
  | cons a rest ih => intro s h; exact ih (f s a) (hf s a h)

theorem tail_length_le (l : List Char) : l.tail.length ≤ l.length := by
  cases l <;> simp

theorem renderLoop_fuel_irrelevant (E : String → String) :
    ∀ (f g : Nat) (m : RenderMode) (rest : List Char),
      rest.length < f → rest.length < g →
      renderLoop E f m rest = renderLoop E g m rest := by
  intro f
  induction f with
  | zero => intro g m rest h1 _; omega
  | succ f ih =>
    intro g m rest h1 h2
    cases g with
    | zero => omega
    | succ g =>
      cases m with
      | scan =>
        cases rest with
        | nil => rfl
        | cons c rest' =>
          simp only [renderLoop]
          have ht := tail_length_le rest'
          simp only [List.length_cons] at h1 h2
          by_cases hc : c = '{' ∧ rest'.head? = some '{'
          · rw [if_pos hc, if_pos hc]
            exact ih g (.inExpr []) rest'.tail (by omega) (by omega)
          · rw [if_neg hc, if_neg hc]
            exact congrArg (fun t => c :: t)
              (ih g .scan rest' (by omega) (by omega))
      | inExpr acc =>
        cases rest with
        | nil => rfl
        | cons c rest' =>
          simp only [renderLoop]
          have ht := tail_length_le rest'
          simp only [List.length_cons] at h1 h2
          by_cases hc : c = '}' ∧ rest'.head? = some '}'
          · rw [if_pos hc, if_pos hc]
            exact congrArg (fun t => (E (String.mk (pyStrip acc))).data ++ t)
              (ih g .scan rest'.tail (by omega) (by omega))
          · rw [if_neg hc, if_neg hc]
            exact ih g (.inExpr (acc ++ [c])) rest' (by omega) (by omega)

theorem renderLoop_close (E : String → String) :
    ∀ (expr acc suf : List Char) (f : Nat),
      expr.length + suf.length + 2 < f →
      adjPairFree '}' (expr ++ ['}']) = true →
      renderLoop E f (.inExpr acc) (expr ++ '}' :: '}' :: suf)
        = (E (String.mk (pyStrip (acc ++ expr)))).data
          ++ renderLoop E (suf.length + 1) .scan suf := by
  intro expr
  induction expr with
  | nil =>
    intro acc suf f hf _
    cases f with
    | zero => omega
    | succ f =>
      simp only [List.nil_append, renderLoop, List.head?_cons, if_pos (And.intro rfl rfl),
        List.tail_cons, List.append_nil]
      exact congrArg (fun t => (E (String.mk (pyStrip acc))).data ++ t)
        (renderLoop_fuel_irrelevant E f (suf.length + 1) .scan suf (by omega) (by omega))
  | cons c expr' ih =>
    intro acc suf f hf hpair
    cases f with
    | zero => simp at hf
    | succ f =>
      have hcond : ¬(c = '}' ∧ (expr' ++ '}' :: '}' :: suf).head? = some '}') := by
        cases expr' with
        | nil =>
          have hc : ¬(c = '}') := by
            simp only [List.nil_append, adjPairFree, Bool.and_eq_true,
              Bool.not_eq_true'] at hpair
            intro hcc
            rcases hpair with ⟨h1, _⟩
            simp [hcc] at h1
          exact fun hx => hc hx.1
        | cons d t =>
          simp only [List.cons_append, adjPairFree, Bool.and_eq_true,
            Bool.not_eq_true'] at hpair
          rcases hpair with ⟨h1, _⟩
          intro hx
          rcases hx with ⟨hc, hd⟩
          simp only [List.cons_append, List.head?_cons, Option.some.injEq] at hd
          simp [hc, hd] at h1
      have hpair' : adjPairFree '}' (expr' ++ ['}']) = true := by
        cases expr' with
        | nil => rfl
        | cons d t =>
          simp only [List.cons_append, adjPairFree, Bool.and_eq_true] at hpair
          exact hpair.2
      simp only [List.cons_append, renderLoop, List.append_eq]
      rw [if_neg hcond, ih (acc ++ [c]) suf f (by simp only [List.length_cons] at hf; omega) hpair']
      simp [List.append_assoc]

theorem renderLoop_scan_leading (E : String → String) :
    ∀ (pre more : List Char) (f : Nat),
      pre.length + more.length + 2 < f →
      adjPairFree '{' (pre ++ ['{']) = true →
      renderLoop E f .scan (pre ++ '{' :: '{' :: more)
        = pre ++ renderLoop E (more.length + 1) (.inExpr []) more := by
  intro pre
  induction pre with
  | nil =>
    intro more f hf _
    cases f with
    | zero => omega
    | succ f =>
      simp only [List.nil_append, renderLoop, List.head?_cons, if_pos (And.intro rfl rfl),
        List.tail_cons]
      exact renderLoop_fuel_irrelevant E f (more.length + 1) (.inExpr []) more
        (by omega) (by omega)
  | cons c pre' ih =>
    intro more f hf hpair
    cases f with
    | zero => simp at hf
    | succ f =>
      have hcond : ¬(c = '{' ∧ (pre' ++ '{' :: '{' :: more).head? = some '{') := by
        cases pre' with
        | nil =>
          have hc : ¬(c = '{') := by
            simp only [List.nil_append, adjPairFree, Bool.and_eq_true,
              Bool.not_eq_true'] at hpair
            intro hcc
            rcases hpair with ⟨h1, _⟩
            simp [hcc] at h1
          exact fun hx => hc hx.1
        | cons d t =>
          simp only [List.cons_append, adjPairFree, Bool.and_eq_true,
            Bool.not_eq_true'] at hpair
          rcases hpair with ⟨h1, _⟩
          intro hx
          rcases hx with ⟨hc, hd⟩
          simp only [List.cons_append, List.head?_cons, Option.some.injEq] at hd
          simp [hc, hd] at h1
      have hpair' : adjPairFree '{' (pre' ++ ['{']) = true := by
        cases pre' with
        | nil => rfl
        | cons d t =>
          simp only [List.cons_append, adjPairFree, Bool.and_eq_true] at hpair
          exact hpair.2
      simp only [List.cons_append, renderLoop, List.append_eq]
      rw [if_neg hcond, ih more f (by simp only [List.length_cons] at hf; omega) hpair']

/-! ## Claim theorems -/

/-- C10: for every evaluation function and template, the renderer replaces
a placeholder exactly once and never re-scans substituted text: a template
`pre ++ open ++ expr ++ close ++ suf` (where `pre` contains no placeholder
opener and does not end in an open brace, and `expr` contains no closer and
does not end in a close brace) renders to `pre`, then the substituted value
verbatim — even when that value itself contains placeholder braces — and
then the rendering of `suf` alone: the scan resumes after the substituted
text, so braces inside it are never evaluated as an expression. -/
theorem renderTemplate_no_rescan (E : String → String) (pre expr suf : List Char)
    (hpre : adjPairFree '{' (pre ++ ['{']) = true)
    (hexpr : adjPairFree '}' (expr ++ ['}']) = true) :
    renderTemplateL E (pre ++ '{' :: '{' :: (expr ++ '}' :: '}' :: suf))
      = pre ++ (E (String.mk (pyStrip expr))).data ++ renderTemplateL E suf := by
  unfold renderTemplateL
  rw [renderLoop_scan_leading E pre (expr ++ '}' :: '}' :: suf)
    ((pre ++ '{' :: '{' :: (expr ++ '}' :: '}' :: suf)).length + 1)
    (by simp; omega) hpre]
  rw [renderLoop_close E expr [] suf ((expr ++ '}' :: '}' :: suf).length + 1)
    (by simp; omega) hexpr]
  simp [List.append_assoc]

/-- Witness for C10 at a concrete input: the evaluation function's output
itself contains a full placeholder, and it lands in the output verbatim
while only the suffix keeps being scanned. -/
theorem renderTemplate_no_rescan_witness :
    adjPairFree '{' (['a'] ++ ['{']) = true
    ∧ adjPairFree '}' ([' ', 'x', ' '] ++ ['}']) = true
    ∧ renderTemplateL substOracle
        (['a'] ++ '{' :: '{' :: ([' ', 'x', ' '] ++ '}' :: '}' :: ['b']))
      = ['a'] ++ (substOracle (String.mk (pyStrip [' ', 'x', ' ']))).data
        ++ renderTemplateL substOracle ['b'] :=
  ⟨by decide, by decide,
    renderTemplate_no_rescan substOracle ['a'] [' ', 'x', ' '] ['b']
      (by decide) (by decide)⟩

/-- C3 counterexample: the claim reads `allows(now)` as true iff `now.time()`
is outside the half-open interval from `end` to `start` when the window
spans midnight. For the window 21:00-08:00 (in minutes: 1260, 480) and
10:00 (600), 10:00 lies inside that interval, so the claim predicts
`allows = false`; the code returns `true` (and the repository's own
scheduler test asserts exactly that). -/
theorem quietHours_midnight_claim_false :
    ¬ ((QuietHours.allows ⟨1260, 480⟩ ⟨0, 600⟩ = true)
        ↔ ¬(480 ≤ 600 ∧ 600 < 1260)) := by
  decide

/-- C3 (amended): `allows(now)` is true iff `now.time()` is outside
`[start, end)` when `start < end`, and true iff `now.time()` is *inside*
`[end, start)` when the window spans midnight (`start > end`); with no
configured window (no scheduler, or a scheduler without quiet hours) the
dispatcher's gate always allows delivery. -/
theorem quietHours_allows_characterization (q : QuietHours) (now : DateTime) :
    (q.start < q.«end» →
      (q.allows now = true ↔ ¬(q.start ≤ now.timeOfDay ∧ now.timeOfDay < q.«end»)))
    ∧ (q.«end» < q.start →
      (q.allows now = true ↔ (q.«end» ≤ now.timeOfDay ∧ now.timeOfDay < q.start)))
    ∧ quietGateAllows Option.none now = true
    ∧ quietGateAllows (Option.some ⟨Option.none⟩) now = true := by
  refine ⟨?_, ?_, rfl, rfl⟩
  · intro h
    simp [QuietHours.allows, h]
    omega
  · intro h
    have h' : ¬(q.start < q.«end») := by omega
    simp [QuietHours.allows, h']

/-- Witness for the amended C3: the window 21:00-08:00 allows 10:00, by the
midnight-spanning case of the characterization. -/
theorem quietHours_allows_characterization_witness :
    QuietHours.allows ⟨1260, 480⟩ ⟨0, 600⟩ = true :=
  ((quietHours_allows_characterization ⟨1260, 480⟩ ⟨0, 600⟩).2.1
    (by decide)).mpr (by decide)

/-- C9: a quiet window whose start equals its end treats the whole day as
quiet: `allows` is false for every datetime, and the dispatcher's gate
always suppresses live delivery. -/
theorem quietHours_start_eq_end_always_quiet (q : QuietHours) (now : DateTime)
    (h : q.start = q.«end») :
    q.allows now = false
    ∧ quietGateAllows (Option.some ⟨Option.some q⟩) now = false := by
  have h1 : q.allows now = false := by
    simp only [QuietHours.allows, h, lt_irrefl, if_false]
    simp only [Bool.and_eq_false_iff, decide_eq_false_iff_not]
    omega
  exact ⟨h1, by simp [quietGateAllows, h1]⟩

/-- Witness for C9 at a concrete degenerate window. -/
theorem quietHours_start_eq_end_always_quiet_witness :
    QuietHours.allows ⟨100, 100⟩ ⟨0, 50⟩ = false
    ∧ quietGateAllows (Option.some ⟨Option.some ⟨100, 100⟩⟩) ⟨0, 50⟩ = false :=
  quietHours_start_eq_end_always_quiet ⟨100, 100⟩ ⟨0, 50⟩ rfl

/-- C5 counterexample: rule-expression evaluation is claimed to expose only
the closed helper set and context names, with no way to invoke arbitrary
host functions or imports. But `RuleSet.evaluate` passes a globals dict
whose `__builtins__` holds the host `__import__`, so with an empty context
the expression `__import__("os")` resolves and evaluates to the host module
`os` — and `__import__` is not a helper. -/
theorem ruleEval_reaches_host_module :
    evalRuleExpr [] (.call (.name "__import__") "os")
      = Option.some (.hostModule "os")
    ∧ ¬("__import__" ∈ SAFE_FUNCTIONS) := by
  constructor
  · rfl
  · decide

/-- C5 (amended): rule-expression evaluation resolves names from the
context and the closed helper set, but additionally exposes the globals'
`__builtins__` dict and, through it, the host `__import__` builtin; unless
the context shadows the name, an expression can therefore call
`__import__` and obtain an arbitrary host module, so the claimed safety
property does not hold of the source. -/
theorem ruleEnv_name_resolution (context : List (String × PyValue))
    (n m : String) (h : context.lookup "__import__" = Option.none) :
    ((lookupRuleName context n).isSome ↔
      ((context.lookup n).isSome ∨ n ∈ SAFE_FUNCTIONS
        ∨ n = "__builtins__" ∨ n = "__import__"))
    ∧ evalRuleExpr context (.call (.name "__import__") m)
        = Option.some (.hostModule m) := by
  constructor
  · unfold lookupRuleName
    cases hl : context.lookup n with
    | some v => simp [hl]
    | none =>
      by_cases hs : n ∈ SAFE_FUNCTIONS
      · have hc : SAFE_FUNCTIONS.contains n = true := by
          simpa [List.elem_iff] using hs
        simp [hl, hc, hs]
      · have hc : SAFE_FUNCTIONS.contains n = false := by
          simp [List.elem_iff, hs]
        by_cases hb : n = "__builtins__"
        · simp [hl, hc, hb]
          decide
        · by_cases hi : n = "__import__"
          · simp [hl, hc, hb, hi]
            decide
          · simp [hl, hc, hb, hi, hs]
  · have hres : lookupRuleName context "__import__" = Option.some RuleVal.hostImport := by
      simp [lookupRuleName, h, SAFE_FUNCTIONS]
    simp [evalRuleExpr, hres]

/-- Witness for the amended C5: with a nonempty context not shadowing the
name, importing a host module still succeeds. -/
theorem ruleEnv_name_resolution_witness :
    evalRuleExpr [(("row"), PyValue.none)] (.call (.name "__import__") "subprocess")
      = Option.some (.hostModule "subprocess") :=
  (ruleEnv_name_resolution [(("row"), PyValue.none)] "x" "subprocess" (by decide)).2

/-- C6 counterexample: the claim says validation succeeds iff every
required field has at least one candidate source present, and that the
report lists the unresolved required sources. With one required field
carrying two candidates `Email, Correo` and a header set containing
`Email`, the claim predicts success; the code reports `Correo` missing and
an invalid summary, because `parse_xlsx` checks every candidate source
individually. -/
theorem validateColumns_claim_false :
    specColumnsValid colsEmailTwo [("Email")] = true
    ∧ (validateColumns colsEmailTwo [("Email")] 1).is_valid = false
    ∧ (validateColumns colsEmailTwo [("Email")] 1).missing_columns = [("Correo")] := by
  refine ⟨by decide, by decide, by decide⟩

/-- C6 (amended): validation succeeds iff *every* candidate source of every
required field is present in the header set; `missing_columns` lists
exactly the required-field candidate sources absent from the headers (in
mapping order); and a non-empty missing list makes the summary invalid. -/
theorem validateColumns_characterization (columns : List (String × ColumnConfig))
    (headers : List String) (n : Nat) :
    ((validateColumns columns headers n).is_valid = true ↔
      (∀ p ∈ columns, p.2.required = true → ∀ s ∈ p.2.sources, s ∈ headers))
    ∧ (validateColumns columns headers n).missing_columns
        = (requiredSources columns).filter (fun s => !(headers.contains s))
    ∧ ((validateColumns columns headers n).missing_columns ≠ [] →
        (validateColumns columns headers n).is_valid = false) := by
  refine ⟨?_, rfl, ?_⟩
  · have hmem : ∀ x, x ∈ requiredSources columns ↔
        ∃ p ∈ columns, p.2.required = true ∧ x ∈ p.2.sources := by
      intro x
      have aux : ∀ (cols : List (String × ColumnConfig)) (acc : List String),
          x ∈ cols.foldl
            (fun acc p => if p.2.required then acc ++ p.2.sources else acc) acc ↔
          (x ∈ acc ∨ ∃ p ∈ cols, p.2.required = true ∧ x ∈ p.2.sources) := by
        intro cols
        induction cols with
        | nil => intro acc; simp
        | cons p rest ih =>
          intro acc
          by_cases hr : p.2.required
          · simp only [List.foldl_cons, hr, if_true, ih, List.mem_append,
              List.mem_cons]
            constructor
            · rintro ((hx | hx) | hx)
              · exact Or.inl hx
              · exact Or.inr ⟨p, Or.inl rfl, hr, hx⟩
              · rcases hx with ⟨q, hq, hreq, hxq⟩
                exact Or.inr ⟨q, Or.inr hq, hreq, hxq⟩
            · rintro (hx | hx)
              · exact Or.inl (Or.inl hx)
              · rcases hx with ⟨q, hq | hq, hreq, hxq⟩
                · exact Or.inl (Or.inr (hq ▸ hxq))
                · exact Or.inr ⟨q, hq, hreq, hxq⟩
          · simp only [List.foldl_cons, hr, if_false, ih, List.mem_cons]
            constructor
            · rintro (hx | hx)
              · exact Or.inl hx
              · rcases hx with ⟨q, hq, hreq, hxq⟩
                exact Or.inr ⟨q, Or.inr hq, hreq, hxq⟩
            · rintro (hx | hx)
              · exact Or.inl hx
              · rcases hx with ⟨q, hq | hq, hreq, hxq⟩
                · exact absurd (by simpa [hq] using hreq) hr
                · exact Or.inr ⟨q, hq, hreq, hxq⟩
      simpa using aux columns []
    have hvalid : (validateColumns columns headers n).is_valid = true ↔
        missingColumns columns headers = [] := by
      simp only [validateColumns, ImportSummary.is_valid, columnErrors]
      by_cases hm : missingColumns columns headers = []
      · simp [hm]
      · simp [hm]
    rw [hvalid]
    unfold missingColumns
    rw [List.filter_eq_nil_iff]
    constructor
    · intro hall p hp hreq s hs
      have hx : s ∈ requiredSources columns := (hmem s).mpr ⟨p, hp, hreq, hs⟩
      have hc := hall s hx
      simpa [List.elem_iff] using hc
    · intro hall x hx
      rcases (hmem x).mp hx with ⟨p, hp, hreq, hs⟩
      have hinx : x ∈ headers := hall p hp hreq x hs
      simp [List.elem_iff, hinx]
  · intro hne
    simp only [validateColumns, ImportSummary.is_valid, columnErrors] at *
    rw [if_neg (by simpa [validateColumns] using hne)]
    simp

/-- Witness for the amended C6: with the single candidate present,
validation succeeds, via the characterization. -/
theorem validateColumns_characterization_witness :
    (validateColumns colsEmailOne [("Correo")] 2).is_valid = true :=
  (validateColumns_characterization colsEmailOne [("Correo")] 2).1.mpr (by decide)

/-- C7 (amended): in the persistence ingest path a row whose normalized
email is empty is skipped — it creates no course, student or enrollment
(and that path writes no audit entries at all). The workflow dispatch path
(`_evaluate_rows`) applies no email filter: every normalized row is
serialised and yielded to the dispatcher, so audits can be written for
empty-email rows there (see the counterexample). -/
theorem ingest_skips_empty_email (db : DBState) (r : NormalizedRow)
    (h : r.emptyEmail = true) (serialize : NormalizedRow → Row)
    (rr : NormalizedRow → RuleResults) (rows : List NormalizedRow) :
    ingestRowStep db r = db
    ∧ (evaluateRows serialize rr rows).length = rows.length := by
  constructor
  · simp [ingestRowStep, h]
  · simp [evaluateRows]

/-- Witness for the amended C7 at a concrete empty-email row. -/
theorem ingest_skips_empty_email_witness :
    ingestRowStep ({} : DBState) emptyEmailRow = ({} : DBState)
    ∧ (evaluateRows serEmail rrEmpty [emptyEmailRow]).length
        = [emptyEmailRow].length :=
  ingest_skips_empty_email ({} : DBState) emptyEmailRow (by decide)
    serEmail rrEmpty [emptyEmailRow]

/-- C7 counterexample: the claim also covers the workflow dispatch path,
asserting that no audit is written for an empty-email row. But
`_evaluate_rows` yields every normalized row unfiltered, and a dry-run
dispatch with an audit repository writes one audit entry for the row with
no email. -/
theorem workflow_path_audits_empty_email_row :
    NormalizedRow.emptyEmail emptyEmailRow = true
    ∧ (dispatch cfgDryRepo oracleTrue
        (evaluateRows serEmail rrEmpty [emptyEmailRow])
        [actNotify] true (Option.some ("pb"))).audits.length = 1 := by
  constructor
  · decide
  · decide

theorem deliver_live_no_dry_run_audit (cfg : DispatcherCfg) (pb : Option String)
    (a : Action) (row : Row) (rr : RuleResults) (j jn qn : Option String) (k : Nat) :
    countStatus "dry_run" (deliver cfg pb a row rr false j jn qn k).audits = 0 := by
  unfold deliver
  cases h : cfg.adapterForChannel (pyLower (a.channel.getD "default")) with
  | none => simp only [h]; rfl
  | some ad =>
    simp only [h]
    cases hs : ad.send { playbook := pb, action := a, row := row, rule_results := rr } with
    | error msg =>
      simp only [hs]
      exact countStatus_auditIf_ne _ _ _ (by simp)
    | ok resp =>
      simp only [hs]
      exact countStatus_auditIf_ne _ _ _ (by simp)

theorem deliver_live_ok_sent (cfg : DispatcherCfg) (pb : Option String)
    (a : Action) (row : Row) (rr : RuleResults) (j jn qn : Option String) (k : Nat)
    (st : String) (r : Option (List (String × PyValue)))
    (h : (deliver cfg pb a row rr false j jn qn k).outcome = .ok st r) :
    st = "sent" := by
  unfold deliver at h
  cases hadap : cfg.adapterForChannel (pyLower (a.channel.getD "default")) with
  | none => simp only [hadap] at h; simp at h
  | some ad =>
    simp only [hadap] at h
    cases hs : ad.send { playbook := pb, action := a, row := row, rule_results := rr } with
    | error msg => simp only [hs] at h; simp at h
    | ok resp =>
      simp only [hs] at h
      simp at h
      exact h.1.symm

theorem recordDryRun_calls (cfg : DispatcherCfg) (pb : Option String)
    (a : Action) (item : EvaluatedRow) (k : Nat) :
    (recordDryRun cfg pb a item k).adapterCalls = [] := by
  unfold recordDryRun
  by_cases h : cfg.hasAuditRepo = false
  · simp [h]
  · rw [if_neg h]
    unfold deliver
    cases hadap : cfg.adapterForChannel (pyLower (a.channel.getD "default")) with
    | none => simp only [hadap]
    | some ad => simp only [hadap, if_true]

theorem recordDryRun_spec (cfg : DispatcherCfg) (pb : Option String)
    (a : Action) (item : EvaluatedRow) (k : Nat) (h : cfg.hasAuditRepo = true) :
    countStatus "dry_run" (recordDryRun cfg pb a item k).audits = 1
    ∧ ∀ e ∈ (recordDryRun cfg pb a item k).audits, e.status = "dry_run" := by
  unfold recordDryRun
  rw [if_neg (show ¬(cfg.hasAuditRepo = false) by simp [h])]
  unfold deliver
  cases hadap : cfg.adapterForChannel (pyLower (a.channel.getD "default")) with
  | none =>
    simp only [hadap, h, List.nil_append]
    constructor
    · exact countStatus_auditIf_eq _ _ rfl
    · intro e he
      simp [auditIf] at he
      simp [he]
  | some ad =>
    simp only [hadap, h, if_true]
    constructor
    · exact countStatus_auditIf_eq _ _ rfl
    · intro e he
      simp [auditIf] at he
      simp [he]

theorem sumMatches_bump_matches (l : List (String × ChannelStats)) (c : String) :
    sumBy statMatches (bumpStat l c incMatches) = sumBy statMatches l + 1 :=
  sumBy_bumpStat_add statMatches incMatches 1 (fun _ => rfl) rfl l c

theorem sumEnqueued_bump_matches (l : List (String × ChannelStats)) (c : String) :
    sumBy statEnqueued (bumpStat l c incMatches) = sumBy statEnqueued l :=
  sumBy_bumpStat_id statEnqueued incMatches (fun _ => rfl) rfl l c

theorem sumSkipped_bump_matches (l : List (String × ChannelStats)) (c : String) :
    sumBy statSkipped (bumpStat l c incMatches) = sumBy statSkipped l :=
  sumBy_bumpStat_id statSkipped incMatches (fun _ => rfl) rfl l c

theorem sumErrors_bump_matches (l : List (String × ChannelStats)) (c : String) :
    sumBy statErrors (bumpStat l c incMatches) = sumBy statErrors l :=
  sumBy_bumpStat_id statErrors incMatches (fun _ => rfl) rfl l c

theorem sumMatches_bump_enqueued (l : List (String × ChannelStats)) (c : String) :
    sumBy statMatches (bumpStat l c incEnqueued) = sumBy statMatches l :=
  sumBy_bumpStat_id statMatches incEnqueued (fun _ => rfl) rfl l c

theorem sumEnqueued_bump_enqueued (l : List (String × ChannelStats)) (c : String) :
    sumBy statEnqueued (bumpStat l c incEnqueued) = sumBy statEnqueued l + 1 :=
  sumBy_bumpStat_add statEnqueued incEnqueued 1 (fun _ => rfl) rfl l c

theorem sumSkipped_bump_enqueued (l : List (String × ChannelStats)) (c : String) :
    sumBy statSkipped (bumpStat l c incEnqueued) = sumBy statSkipped l :=
  sumBy_bumpStat_id statSkipped incEnqueued (fun _ => rfl) rfl l c

theorem sumErrors_bump_enqueued (l : List (String × ChannelStats)) (c : String) :
    sumBy statErrors (bumpStat l c incEnqueued) = sumBy statErrors l :=
  sumBy_bumpStat_id statErrors incEnqueued (fun _ => rfl) rfl l c

theorem sumMatches_bump_skipped (l : List (String × ChannelStats)) (c : String) :
    sumBy statMatches (bumpStat l c incSkipped) = sumBy statMatches l :=
  sumBy_bumpStat_id statMatches incSkipped (fun _ => rfl) rfl l c

theorem sumEnqueued_bump_skipped (l : List (String × ChannelStats)) (c : String) :
    sumBy statEnqueued (bumpStat l c incSkipped) = sumBy statEnqueued l :=
  sumBy_bumpStat_id statEnqueued incSkipped (fun _ => rfl) rfl l c

theorem sumSkipped_bump_skipped (l : List (String × ChannelStats)) (c : String) :
    sumBy statSkipped (bumpStat l c incSkipped) = sumBy statSkipped l + 1 :=
  sumBy_bumpStat_add statSkipped incSkipped 1 (fun _ => rfl) rfl l c

theorem sumErrors_bump_skipped (l : List (String × ChannelStats)) (c : String) :
    sumBy statErrors (bumpStat l c incSkipped) = sumBy statErrors l :=
  sumBy_bumpStat_id statErrors incSkipped (fun _ => rfl) rfl l c

theorem sumMatches_bump_errors (l : List (String × ChannelStats)) (c : String) :
    sumBy statMatches (bumpStat l c incErrors) = sumBy statMatches l :=
  sumBy_bumpStat_id statMatches incErrors (fun _ => rfl) rfl l c

theorem sumEnqueued_bump_errors (l : List (String × ChannelStats)) (c : String) :
    sumBy statEnqueued (bumpStat l c incErrors) = sumBy statEnqueued l :=
  sumBy_bumpStat_id statEnqueued incErrors (fun _ => rfl) rfl l c

theorem sumSkipped_bump_errors (l : List (String × ChannelStats)) (c : String) :
    sumBy statSkipped (bumpStat l c incErrors) = sumBy statSkipped l :=
  sumBy_bumpStat_id statSkipped incErrors (fun _ => rfl) rfl l c

theorem sumErrors_bump_errors (l : List (String × ChannelStats)) (c : String) :
    sumBy statErrors (bumpStat l c incErrors) = sumBy statErrors l + 1 :=
  sumBy_bumpStat_add statErrors incErrors 1 (fun _ => rfl) rfl l c

theorem dispatchStep_balanced (cfg : DispatcherCfg) (E : EvalOracle) (dryRun : Bool)
    (pb : Option String) (item : EvaluatedRow) (hrepo : cfg.hasAuditRepo = true)
    (s : DispatchState) (a : Action) (h : statsBalanced s) :
    statsBalanced (dispatchStep cfg E dryRun pb item s a) := by
  unfold statsBalanced at h
  by_cases h1 : pyLower (a.type.getD "") = "notify"
  · cases h2 : shouldDispatch E a.when item with
    | false =>
      simp only [dispatchStep, h1, h2, ne_eq, not_true_eq_false, if_false, Bool.true_eq_false, Bool.false_eq_true, eq_self_iff_true, if_true]
      exact h
    | true =>
      cases hd : dryRun with
      | true =>
        have hs := (recordDryRun_spec cfg pb (renderAction E item a) item
          s.nextJobId hrepo).1
        simp only [dispatchStep, h1, h2, ne_eq, not_true_eq_false, if_false, Bool.true_eq_false, Bool.false_eq_true, eq_self_iff_true, if_true, hd]
        simp only [statsBalanced, sumMatches_bump_matches, sumEnqueued_bump_matches,
          sumSkipped_bump_matches, sumErrors_bump_matches, countStatus_append, hs]
        omega
      | false =>
        cases hq : quietGateAllows cfg.scheduler cfg.now with
        | false =>
          simp only [dispatchStep, h1, h2, ne_eq, not_true_eq_false, if_false, Bool.true_eq_false, Bool.false_eq_true, eq_self_iff_true, if_true, hd, hq]
          simp only [statsBalanced, sumMatches_bump_matches, sumEnqueued_bump_matches,
            sumSkipped_bump_matches, sumErrors_bump_matches, sumMatches_bump_skipped,
            sumEnqueued_bump_skipped, sumSkipped_bump_skipped, sumErrors_bump_skipped,
            countStatus_append]
          rw [countStatus_auditIf_ne _ _ _ (by simp)]
          omega
        | true =>
          cases hqueue : cfg.hasQueue with
          | false =>
            have hda := deliver_live_no_dry_run_audit cfg pb (renderAction E item a)
              item.row item.rule_results (Option.some (genJobId s.nextJobId))
              (Option.some cfg.job_name) cfg.queueLabel (s.nextJobId + 1)
            simp only [dispatchStep, h1, h2, ne_eq, not_true_eq_false, if_false, Bool.true_eq_false, Bool.false_eq_true, eq_self_iff_true, if_true, hd, hq, hqueue]
            cases hout : (deliver cfg pb (renderAction E item a) item.row
                item.rule_results false (Option.some (genJobId s.nextJobId))
                (Option.some cfg.job_name) cfg.queueLabel (s.nextJobId + 1)).outcome with
            | adapterNotFound ch =>
              simp only [hout]
              simp only [statsBalanced, sumMatches_bump_matches,
                sumEnqueued_bump_matches, sumSkipped_bump_matches,
                sumErrors_bump_matches, sumMatches_bump_errors,
                sumEnqueued_bump_errors, sumSkipped_bump_errors,
                sumErrors_bump_errors, countStatus_append, hda]
              omega
            | deliveryError ch ad msg =>
              simp only [hout]
              simp only [statsBalanced, sumMatches_bump_matches,
                sumEnqueued_bump_matches, sumSkipped_bump_matches,
                sumErrors_bump_matches, sumMatches_bump_errors,
                sumEnqueued_bump_errors, sumSkipped_bump_errors,
                sumErrors_bump_errors, countStatus_append, hda]
              omega
            | ok st r =>
              have hsent : st = "sent" := deliver_live_ok_sent cfg pb
                (renderAction E item a) item.row item.rule_results
                (Option.some (genJobId s.nextJobId)) (Option.some cfg.job_name)
                cfg.queueLabel (s.nextJobId + 1) st r hout
              subst hsent
              simp only [hout]
              simp only [eq_self_iff_true, if_true, statsBalanced,
                sumMatches_bump_matches, sumEnqueued_bump_matches,
                sumSkipped_bump_matches, sumErrors_bump_matches,
                sumMatches_bump_enqueued, sumEnqueued_bump_enqueued,
                sumSkipped_bump_enqueued, sumErrors_bump_enqueued,
                countStatus_append, hda]
              omega
          | true =>
            simp only [dispatchStep, h1, h2, ne_eq, not_true_eq_false, if_false, Bool.true_eq_false, Bool.false_eq_true, eq_self_iff_true, if_true, hd, hq, hqueue]
            simp only [statsBalanced, sumMatches_bump_matches,
              sumEnqueued_bump_matches, sumSkipped_bump_matches,
              sumErrors_bump_matches, sumMatches_bump_enqueued,
              sumEnqueued_bump_enqueued, sumSkipped_bump_enqueued,
              sumErrors_bump_enqueued, countStatus_append]
            rw [countStatus_auditIf_ne _ _ _ (by simp)]
            omega
  · simp only [dispatchStep, h1, ne_eq, not_false_eq_true, if_true]
    exact h

/-- C1 (amended): for every dispatch run of a dispatcher configured with an
audit repository, the per-channel statistics satisfy: the sum over channels
of `matches` equals the sum of `enqueued`, `skipped_quiet_hours` and
`errors` plus the number of audit entries recorded with status `dry_run`
during the run. (Without a repository, `_record_dry_run` returns before
auditing, so a dry-run run counts matches but records no audits and the
equation fails — see the counterexample.) -/
theorem dispatch_stats_balanced (cfg : DispatcherCfg) (E : EvalOracle)
    (rows : List EvaluatedRow) (actions : List Action) (dryRun : Bool)
    (playbook : Option String) (hrepo : cfg.hasAuditRepo = true) :
    sumBy statMatches (dispatch cfg E rows actions dryRun playbook).summary
      = sumBy statEnqueued (dispatch cfg E rows actions dryRun playbook).summary
        + sumBy statSkipped (dispatch cfg E rows actions dryRun playbook).summary
        + sumBy statErrors (dispatch cfg E rows actions dryRun playbook).summary
        + countStatus "dry_run" (dispatch cfg E rows actions dryRun playbook).audits := by
  have hall : statsBalanced (dispatch cfg E rows actions dryRun playbook) := by
    unfold dispatch
    refine foldl_preserves statsBalanced _ ?_ rows ({} : DispatchState) rfl
    intro s item hs
    exact foldl_preserves statsBalanced (dispatchStep cfg E dryRun playbook item)
      (fun s' a' h' => dispatchStep_balanced cfg E dryRun playbook item hrepo s' a' h')
      actions s hs
  exact hall

/-- Witness for the amended C1: a live inline run with a failing adapter
balances (one match, one error). -/
theorem dispatch_stats_balanced_witness :
    cfgInlineFailRepo.hasAuditRepo = true
    ∧ sumBy statMatches
        (dispatch cfgInlineFailRepo oracleTrue [rowPhone] [actNotify] false
          Option.none).summary
      = sumBy statEnqueued
          (dispatch cfgInlineFailRepo oracleTrue [rowPhone] [actNotify] false
            Option.none).summary
        + sumBy statSkipped
            (dispatch cfgInlineFailRepo oracleTrue [rowPhone] [actNotify] false
              Option.none).summary
        + sumBy statErrors
            (dispatch cfgInlineFailRepo oracleTrue [rowPhone] [actNotify] false
              Option.none).summary
        + countStatus "dry_run"
            (dispatch cfgInlineFailRepo oracleTrue [rowPhone] [actNotify] false
              Option.none).audits :=
  ⟨rfl, dispatch_stats_balanced cfgInlineFailRepo oracleTrue [rowPhone] [actNotify]
    false Option.none rfl⟩

/-- C1 counterexample: a dry-run dispatch on a dispatcher without an audit
repository (the default wiring of `WorkflowRunner._default_dispatcher_factory`
passes none) books one match but records zero audits, so the claimed balance
equation is false for that run. -/
theorem dispatch_stats_unbalanced_without_repository :
    ¬ (sumBy statMatches
        (dispatch cfgDryNoRepo oracleTrue [rowPhone] [actNotify] true
          Option.none).summary
      = sumBy statEnqueued
          (dispatch cfgDryNoRepo oracleTrue [rowPhone] [actNotify] true
            Option.none).summary
        + sumBy statSkipped
            (dispatch cfgDryNoRepo oracleTrue [rowPhone] [actNotify] true
              Option.none).summary
        + sumBy statErrors
            (dispatch cfgDryNoRepo oracleTrue [rowPhone] [actNotify] true
              Option.none).summary
        + countStatus "dry_run"
            (dispatch cfgDryNoRepo oracleTrue [rowPhone] [actNotify] true
              Option.none).audits) := by
  decide

theorem dispatchStep_dry_pure (cfg : DispatcherCfg) (E : EvalOracle)
    (pb : Option String) (item : EvaluatedRow)
    (s : DispatchState) (a : Action)
    (h1 : s.adapterCalls = []) (h2 : s.enqueues = [])
    (h3 : cfg.hasAuditRepo = true →
      countStatus "dry_run" s.audits = sumBy statMatches s.summary
      ∧ ∀ e ∈ s.audits, e.status = "dry_run") :
    (dispatchStep cfg E true pb item s a).adapterCalls = []
    ∧ (dispatchStep cfg E true pb item s a).enqueues = []
    ∧ (cfg.hasAuditRepo = true →
        countStatus "dry_run" (dispatchStep cfg E true pb item s a).audits
          = sumBy statMatches (dispatchStep cfg E true pb item s a).summary
        ∧ ∀ e ∈ (dispatchStep cfg E true pb item s a).audits,
            e.status = "dry_run") := by
  by_cases ht : pyLower (a.type.getD "") = "notify"
  · cases hg : shouldDispatch E a.when item with
    | false =>
      simp only [dispatchStep, ht, hg, ne_eq, not_true_eq_false, if_false,
        Bool.true_eq_false, Bool.false_eq_true, eq_self_iff_true, if_true]
      exact ⟨h1, h2, h3⟩
    | true =>
      have hc := recordDryRun_calls cfg pb (renderAction E item a) item s.nextJobId
      simp only [dispatchStep, ht, hg, ne_eq, not_true_eq_false, if_false,
        Bool.true_eq_false, Bool.false_eq_true, eq_self_iff_true, if_true]
      refine ⟨?_, ?_, ?_⟩
      · simp only [h1, hc, List.nil_append]
      · exact h2
      · intro hrepo
        have hs := recordDryRun_spec cfg pb (renderAction E item a) item
          s.nextJobId hrepo
        rcases h3 hrepo with ⟨h3a, h3b⟩
        constructor
        · simp only [countStatus_append, hs.1, sumMatches_bump_matches, h3a]
        · intro e he
          simp only [List.mem_append] at he
          cases he with
          | inl hmem => exact h3b e hmem
          | inr hmem => exact hs.2 e hmem
  · simp only [dispatchStep, ht, ne_eq, not_false_eq_true, if_true]
    exact ⟨h1, h2, h3⟩

/-- C2 (amended): for every dispatch run invoked with `dry_run=true` — with
or without an audit repository — no adapter `send` is ever invoked and
nothing is enqueued on the queue; and when an audit repository is
configured, the run records exactly one audit per matched action and every
recorded audit has status `dry_run`. (Without a repository nothing is
recorded, so "exactly one dry_run audit per matched action" fails as
stated — see the counterexample; no adapter call and no enqueue still hold
there, since `_record_dry_run` returns immediately.) -/
theorem dispatch_dry_run_no_side_effects (cfg : DispatcherCfg) (E : EvalOracle)
    (rows : List EvaluatedRow) (actions : List Action) (playbook : Option String) :
    (dispatch cfg E rows actions true playbook).adapterCalls = []
    ∧ (dispatch cfg E rows actions true playbook).enqueues = []
    ∧ (cfg.hasAuditRepo = true →
        countStatus "dry_run" (dispatch cfg E rows actions true playbook).audits
          = sumBy statMatches (dispatch cfg E rows actions true playbook).summary
        ∧ ∀ e ∈ (dispatch cfg E rows actions true playbook).audits,
            e.status = "dry_run") := by
  have hall :
      (fun st : DispatchState => st.adapterCalls = [] ∧ st.enqueues = []
        ∧ (cfg.hasAuditRepo = true →
            countStatus "dry_run" st.audits = sumBy statMatches st.summary
            ∧ ∀ e ∈ st.audits, e.status = "dry_run"))
      (dispatch cfg E rows actions true playbook) := by
    unfold dispatch
    refine foldl_preserves
      (fun st : DispatchState => st.adapterCalls = [] ∧ st.enqueues = []
        ∧ (cfg.hasAuditRepo = true →
            countStatus "dry_run" st.audits = sumBy statMatches st.summary
            ∧ ∀ e ∈ st.audits, e.status = "dry_run"))
      _ ?_ rows ({} : DispatchState) ⟨rfl, rfl, fun _ => ⟨rfl, by simp⟩⟩
    intro s item hsp
    exact foldl_preserves
      (fun st : DispatchState => st.adapterCalls = [] ∧ st.enqueues = []
        ∧ (cfg.hasAuditRepo = true →
            countStatus "dry_run" st.audits = sumBy statMatches st.summary
            ∧ ∀ e ∈ st.audits, e.status = "dry_run"))
      (dispatchStep cfg E true playbook item)
      (fun s' a' h' => dispatchStep_dry_pure cfg E playbook item s' a'
        h'.1 h'.2.1 h'.2.2)
      actions s hsp
  exact hall

/-- Witness for the amended C2: the unconditional no-side-effect conjuncts
at the repository-less default wiring, and the audit-count conjunct at a
repository-configured dispatcher with its hypothesis discharged. -/
theorem dispatch_dry_run_no_side_effects_witness :
    (dispatch cfgDryNoRepo oracleTrue [rowPhone] [actNotify] true
        (Option.some ("demo"))).adapterCalls = []
    ∧ (dispatch cfgDryNoRepo oracleTrue [rowPhone] [actNotify] true
        (Option.some ("demo"))).enqueues = []
    ∧ countStatus "dry_run"
        (dispatch cfgDryRepo oracleTrue [rowPhone] [actNotify] true
          (Option.some ("demo"))).audits
      = sumBy statMatches
          (dispatch cfgDryRepo oracleTrue [rowPhone] [actNotify] true
            (Option.some ("demo"))).summary :=
  ⟨(dispatch_dry_run_no_side_effects cfgDryNoRepo oracleTrue [rowPhone]
      [actNotify] (Option.some ("demo"))).1,
   (dispatch_dry_run_no_side_effects cfgDryNoRepo oracleTrue [rowPhone]
      [actNotify] (Option.some ("demo"))).2.1,
   ((dispatch_dry_run_no_side_effects cfgDryRepo oracleTrue [rowPhone]
      [actNotify] (Option.some ("demo"))).2.2 rfl).1⟩

/-- C2 counterexample: with no audit repository configured (the default
workflow wiring), a dry-run dispatch matches an action but records zero
audit entries, so "every matched action produces exactly one audit entry
with status dry_run" is false as stated. -/
theorem dispatch_dry_run_missing_audit_without_repository :
    sumBy statMatches
      (dispatch cfgDryNoRepo oracleTrue [rowPhone] [actNotify] true
        (Option.some ("demo"))).summary = 1
    ∧ (dispatch cfgDryNoRepo oracleTrue [rowPhone] [actNotify] true
        (Option.some ("demo"))).audits = [] := by
  constructor
  · decide
  · decide

/-- C8 (amended): in a live dispatch with no queue configured — with or
without an audit repository — when the resolved adapter's `send` raises on
a matched action, the channel's `errors` statistic increments by exactly 1
(and no other statistic changes), the run continues with the remaining
actions (the fold simply proceeds on the updated state; `dispatch` is
total, so no delivery error propagates out of it); and when an audit
repository is configured, one audit entry with status `error` and a
non-null `error` field is recorded. (Without a repository the error audit
is skipped, see the counterexample.) -/
theorem dispatch_inline_failure_contained (cfg : DispatcherCfg) (E : EvalOracle)
    (pb : Option String) (item : EvaluatedRow) (a : Action) (s : DispatchState)
    (ad : Adapter) (msg : String) (rest : List Action)
    (hq : cfg.hasQueue = false)
    (ht : pyLower (a.type.getD "") = "notify")
    (hg : shouldDispatch E a.when item = true)
    (hquiet : quietGateAllows cfg.scheduler cfg.now = true)
    (hadapter : cfg.adapterForChannel (actionChannel E item a) = Option.some ad)
    (hsend : ad.send
        { playbook := pb, action := renderAction E item a
          row := item.row, rule_results := item.rule_results }
      = Except.error msg) :
    (getStats (dispatchStep cfg E false pb item s a).summary
        (actionChannel E item a)).errors
      = (getStats s.summary (actionChannel E item a)).errors + 1
    ∧ sumBy statErrors (dispatchStep cfg E false pb item s a).summary
        = sumBy statErrors s.summary + 1
    ∧ sumBy statEnqueued (dispatchStep cfg E false pb item s a).summary
        = sumBy statEnqueued s.summary
    ∧ sumBy statSkipped (dispatchStep cfg E false pb item s a).summary
        = sumBy statSkipped s.summary
    ∧ (cfg.hasAuditRepo = true →
        ∃ e, (dispatchStep cfg E false pb item s a).audits = s.audits ++ [e]
          ∧ e.status = "error" ∧ e.error = Option.some msg)
    ∧ dispatchRow cfg E false pb (a :: rest) s item
        = dispatchRow cfg E false pb rest (dispatchStep cfg E false pb item s a)
            item := by
  simp only [actionChannel] at hadapter ⊢
  refine ⟨?_, ?_, ?_, ?_, ?_, rfl⟩ <;>
    · simp only [dispatchStep, deliver, ht, hg, hquiet, hq, hadapter, hsend,
        ne_eq, not_true_eq_false, if_false, Bool.true_eq_false,
        Bool.false_eq_true, eq_self_iff_true, if_true]
      first
      | (rw [getStats_bumpStat_self, getStats_bumpStat_self]; rfl)
      | simp only [sumErrors_bump_errors, sumErrors_bump_matches]
      | simp only [sumEnqueued_bump_errors, sumEnqueued_bump_matches]
      | simp only [sumSkipped_bump_errors, sumSkipped_bump_matches]
      | (intro hrepo
         simp only [hrepo, auditIf, if_true]
         exact ⟨_, rfl, rfl, rfl⟩)

/-- Witness for the amended C8 at a concrete failing adapter, with the
audit conjunct's repository hypothesis discharged. -/
theorem dispatch_inline_failure_contained_witness :
    (getStats (dispatchStep cfgInlineFailRepo oracleTrue false Option.none rowPhone
        ({} : DispatchState) actNotify).summary
        (actionChannel oracleTrue rowPhone actNotify)).errors
      = (getStats ({} : DispatchState).summary
          (actionChannel oracleTrue rowPhone actNotify)).errors + 1
    ∧ sumBy statErrors (dispatchStep cfgInlineFailRepo oracleTrue false Option.none
        rowPhone ({} : DispatchState) actNotify).summary
        = sumBy statErrors ({} : DispatchState).summary + 1
    ∧ sumBy statEnqueued (dispatchStep cfgInlineFailRepo oracleTrue false Option.none
        rowPhone ({} : DispatchState) actNotify).summary
        = sumBy statEnqueued ({} : DispatchState).summary
    ∧ sumBy statSkipped (dispatchStep cfgInlineFailRepo oracleTrue false Option.none
        rowPhone ({} : DispatchState) actNotify).summary
        = sumBy statSkipped ({} : DispatchState).summary
    ∧ (∃ e, (dispatchStep cfgInlineFailRepo oracleTrue false Option.none rowPhone
          ({} : DispatchState) actNotify).audits = ({} : DispatchState).audits ++ [e]
        ∧ e.status = "error" ∧ e.error = Option.some ("boom"))
    ∧ dispatchRow cfgInlineFailRepo oracleTrue false Option.none ([actNotify])
        ({} : DispatchState) rowPhone
        = dispatchRow cfgInlineFailRepo oracleTrue false Option.none []
            (dispatchStep cfgInlineFailRepo oracleTrue false Option.none rowPhone
              ({} : DispatchState) actNotify) rowPhone :=
  have h := dispatch_inline_failure_contained cfgInlineFailRepo oracleTrue
    Option.none rowPhone actNotify ({} : DispatchState) failingAdapter ("boom") []
    rfl (by decide) rfl rfl rfl rfl
  ⟨h.1, h.2.1, h.2.2.1, h.2.2.2.1, h.2.2.2.2.1 rfl, h.2.2.2.2.2⟩

/-- C8 counterexample: with no audit repository, the adapter failure still
increments `errors` but no `error` audit is written, so the claim's audit
conjunct is false as stated. -/
theorem dispatch_inline_failure_no_audit_without_repository :
    sumBy statErrors
      (dispatch cfgInlineFailNoRepo oracleTrue [rowPhone] [actNotify] false
        Option.none).summary = 1
    ∧ (dispatch cfgInlineFailNoRepo oracleTrue [rowPhone] [actNotify] false
        Option.none).audits = [] := by
  constructor
  · decide
  · decide

/-- C4 (amended): in a live dispatch with a queue configured and the clock
inside the quiet window, a matched action results in no queue call and no
adapter call, one audit entry with status `quiet_hours` — but that entry
carries no `job_id`, so `SQLANotificationRepository.add` upserts *no* Job
for it (its `quiet_hours → paused` mapping stays unused on this path; the
dispatcher suppresses delivery before any job id is generated). -/
theorem dispatch_quiet_hours_suppression (cfg : DispatcherCfg) (E : EvalOracle)
    (pb : Option String) (item : EvaluatedRow) (a : Action) (s : DispatchState)
    (hrepo : cfg.hasAuditRepo = true) (_hq : cfg.hasQueue = true)
    (ht : pyLower (a.type.getD "") = "notify")
    (hg : shouldDispatch E a.when item = true)
    (hquiet : quietGateAllows cfg.scheduler cfg.now = false) :
    (dispatchStep cfg E false pb item s a).enqueues = s.enqueues
    ∧ (dispatchStep cfg E false pb item s a).adapterCalls = s.adapterCalls
    ∧ sumBy statSkipped (dispatchStep cfg E false pb item s a).summary
        = sumBy statSkipped s.summary + 1
    ∧ (∃ e, (dispatchStep cfg E false pb item s a).audits = s.audits ++ [e]
        ∧ e.status = "quiet_hours" ∧ e.job_id = Option.none
        ∧ jobUpsertOf e = Option.none)
    ∧ mapJobStatus "quiet_hours" = "paused" := by
  simp only [dispatchStep, ht, hg, hquiet, ne_eq, not_true_eq_false, if_false,
    Bool.true_eq_false, Bool.false_eq_true, eq_self_iff_true, if_true]
  simp only [hrepo, auditIf, if_true]
  refine ⟨?_, ?_, ?_, ?_, ?_⟩
  · simp
  · simp
  · simp only [sumSkipped_bump_skipped, sumSkipped_bump_matches]
  · exact ⟨_, rfl, rfl, rfl, rfl⟩
  · rfl

/-- Witness for the amended C4 at the concrete quiet-hours configuration. -/
theorem dispatch_quiet_hours_suppression_witness :
    (dispatchStep cfgQuietQueue oracleTrue false (Option.some ("demo")) rowPhone
        ({} : DispatchState) actNotify).enqueues = ({} : DispatchState).enqueues
    ∧ (dispatchStep cfgQuietQueue oracleTrue false (Option.some ("demo")) rowPhone
        ({} : DispatchState) actNotify).adapterCalls
        = ({} : DispatchState).adapterCalls
    ∧ sumBy statSkipped (dispatchStep cfgQuietQueue oracleTrue false
        (Option.some ("demo")) rowPhone ({} : DispatchState) actNotify).summary
        = sumBy statSkipped ({} : DispatchState).summary + 1
    ∧ (∃ e, (dispatchStep cfgQuietQueue oracleTrue false (Option.some ("demo"))
          rowPhone ({} : DispatchState) actNotify).audits
          = ({} : DispatchState).audits ++ [e]
        ∧ e.status = "quiet_hours" ∧ e.job_id = Option.none
        ∧ jobUpsertOf e = Option.none)
    ∧ mapJobStatus "quiet_hours" = "paused" :=
  dispatch_quiet_hours_suppression cfgQuietQueue oracleTrue (Option.some ("demo"))
    rowPhone actNotify ({} : DispatchState) rfl rfl (by decide) rfl (by decide)

/-- C4 counterexample: the claim asserts a Job upserted with status `paused`.
In the concrete quiet-hours run the single audit has status `quiet_hours`
but carries no job id, so the repository performs no Job upsert at all:
no `(job, "paused")` pair exists. -/
theorem dispatch_quiet_hours_no_job_upsert :
    (dispatch cfgQuietQueue oracleTrue [rowPhone] [actNotify] false
        (Option.some ("demo"))).enqueues = []
    ∧ ((dispatch cfgQuietQueue oracleTrue [rowPhone] [actNotify] false
        (Option.some ("demo"))).audits.map (fun e => e.status)) = [("quiet_hours")]
    ∧ repositoryUpserts (dispatch cfgQuietQueue oracleTrue [rowPhone] [actNotify]
        false (Option.some ("demo"))).audits = [] := by
  refine ⟨by decide, by decide, by decide⟩

end Formasur
